import Mathlib

/-!
Shallow embedding of the rate-card uplift engine in `src/app.py`.

The embedding covers the core pipeline of the app: revenue-column
resolution and chronological sorting (lines 26-42), the dimension filter
and affected/unaffected partition (lines 48-54 and 75-87), the two uplift
models (lines 90-109), reconciliation (line 112), the summary totals
(lines 115-117) and the margin evaluation (lines 120-129, 136).

Numeric conventions: pandas stores revenue, charge-rate and cost-rate
values as floats; the multiplicative/additive arithmetic of the uplift is
embedded over `ℚ`.  The margin computation, whose behaviour hinges on the
IEEE semantics of division by zero and of `np.nanmean`, is embedded over
an explicit float-like value type `Fl` with `nan` and signed infinities.
-/

namespace RateCard

/-- Float-like scalar for the margin computation: a finite rational,
positive infinity, negative infinity, or not-a-number, mirroring numpy
scalar semantics for the operations the margin code performs. -/
inductive Fl where
  | fin : ℚ → Fl
  | pinf : Fl
  | ninf : Fl
  | nan : Fl
deriving DecidableEq

/-- Predicate `np.isnan` on the float-like scalars. -/
def Fl.isNan : Fl → Bool
  | .nan => true
  | _ => false

/-- IEEE subtraction on float-like scalars. -/
def Fl.sub : Fl → Fl → Fl
  | .nan, _ => .nan
  | _, .nan => .nan
  | .pinf, .pinf => .nan
  | .pinf, _ => .pinf
  | .ninf, .ninf => .nan
  | .ninf, _ => .ninf
  | .fin _, .pinf => .ninf
  | .fin _, .ninf => .pinf
  | .fin a, .fin b => .fin (a - b)

/-- IEEE addition on float-like scalars. -/
def Fl.add : Fl → Fl → Fl
  | .nan, _ => .nan
  | _, .nan => .nan
  | .pinf, .ninf => .nan
  | .pinf, _ => .pinf
  | .ninf, .pinf => .nan
  | .ninf, _ => .ninf
  | .fin _, .pinf => .pinf
  | .fin _, .ninf => .ninf
  | .fin a, .fin b => .fin (a + b)

/-- IEEE multiplication on float-like scalars. -/
def Fl.mul : Fl → Fl → Fl
  | .nan, _ => .nan
  | _, .nan => .nan
  | .pinf, .pinf => .pinf
  | .pinf, .ninf => .ninf
  | .ninf, .pinf => .ninf
  | .ninf, .ninf => .pinf
  | .pinf, .fin b => if b = 0 then .nan else if 0 < b then .pinf else .ninf
  | .ninf, .fin b => if b = 0 then .nan else if 0 < b then .ninf else .pinf
  | .fin a, .pinf => if a = 0 then .nan else if 0 < a then .pinf else .ninf
  | .fin a, .ninf => if a = 0 then .nan else if 0 < a then .ninf else .pinf
  | .fin a, .fin b => .fin (a * b)

/-- IEEE division on float-like scalars; division of a nonzero finite
value by (positive) zero yields a signed infinity, `0/0` yields `nan`
(numpy emits only a suppressed warning in both cases — `app.py` wraps the
margin division in `np.errstate(divide=ignore, invalid=ignore)`). -/
def Fl.div : Fl → Fl → Fl
  | .nan, _ => .nan
  | _, .nan => .nan
  | .pinf, .pinf => .nan
  | .pinf, .ninf => .nan
  | .ninf, .pinf => .nan
  | .ninf, .ninf => .nan
  | .pinf, .fin b => if 0 ≤ b then .pinf else .ninf
  | .ninf, .fin b => if 0 ≤ b then .ninf else .pinf
  | .fin _, .pinf => .fin 0
  | .fin _, .ninf => .fin 0
  | .fin a, .fin b =>
      if b = 0 then (if a = 0 then .nan else if 0 < a then .pinf else .ninf)
      else .fin (a / b)

/-- The four dimension (filter) columns: Branch, Capability,
Department / Team, Job Title (`app.py` lines 51-54). -/
inductive Dim where
  | branch : Dim
  | capability : Dim
  | team : Dim
  | job : Dim
deriving DecidableEq, Fintype

/-- The fixed order in which `app.py` conjoins the four filter terms
(lines 76-83); the order is immaterial to the conjunction. -/
def dims : List Dim := [Dim.branch, Dim.capability, Dim.team, Dim.job]

/-- One row of the spreadsheet: the four dimension values (`none` models a
missing/NaN cell), the daily charge rate, the daily cost rate, and the
month-revenue cells listed in dataframe column order. -/
structure Row where
  branch : Option String
  capability : Option String
  team : Option String
  job : Option String
  charge : ℚ
  cost : ℚ
  rev : List ℚ
deriving DecidableEq

/-- The value a row holds for a dimension column. -/
def Row.dimVal (r : Row) : Dim → Option String
  | .branch => r.branch
  | .capability => r.capability
  | .team => r.team
  | .job => r.job

/-- The loaded dataframe: which dimension/rate columns are present at all
(`app.py` is robust to absent columns), the names of the revenue columns
in dataframe column order (every name carries the `.2` suffix), and the
rows.  Each row's `rev` list is aligned with `revColNames`. -/
structure Table where
  hasBranch : Bool
  hasCapability : Bool
  hasTeam : Bool
  hasJob : Bool
  hasCharge : Bool
  hasCost : Bool
  revColNames : List String
  rows : List Row
deriving DecidableEq

/-- Whether a dimension column is present in the dataframe. -/
def Table.colPresent (t : Table) : Dim → Bool
  | .branch => t.hasBranch
  | .capability => t.hasCapability
  | .team => t.hasTeam
  | .job => t.hasJob

/-- `safe_unique` (`app.py` lines 48-49): the distinct non-null values
observed for a dimension column, or `[]` when the column is absent. -/
def safe_unique (t : Table) (d : Dim) : List String :=
  if t.colPresent d then (t.rows.filterMap (fun r => r.dimVal d)).dedup else []

/-- The user's multiselect choices, one list of values per dimension
(`app.py` lines 56-59). -/
structure Selection where
  branch : List String
  capability : List String
  team : List String
  job : List String
deriving DecidableEq

/-- The selected value set for a dimension. -/
def Selection.sel (s : Selection) : Dim → List String
  | .branch => s.branch
  | .capability => s.capability
  | .team => s.team
  | .job => s.job

/-- One conjunct of the filter mask (`app.py` lines 76-83): the term for
dimension `d` is skipped (taken `true`) exactly when the observed value
list `safe_unique` for `d` is empty — this is the `if len(branches):`
guard; otherwise the row's value must be a member of the selection
(`Series.isin`; a null cell never matches). -/
def dimTerm (t : Table) (s : Selection) (d : Dim) (r : Row) : Bool :=
  if (safe_unique t d).isEmpty then true
  else
    match r.dimVal d with
    | some v => (s.sel d).contains v
    | none => false

/-- The row mask (`app.py` lines 75-83): the conjunction of the four
dimension terms, starting from `pd.Series(True, ...)`. -/
def rowMask (t : Table) (s : Selection) (r : Row) : Bool :=
  dims.all (fun d => dimTerm t s d r)

/-- `df_affected` (`app.py` line 86): the rows satisfying the mask, in
original order. -/
def df_affected (t : Table) (s : Selection) : List Row :=
  t.rows.filter (rowMask t s)

/-- `df_unaffected` (`app.py` line 87): the rows whose (unique, pandas
`RangeIndex`) index is not among the affected indices — with unique row
indices this is exactly the rows failing the mask, in original order. -/
def df_unaffected (t : Table) (s : Selection) : List Row :=
  t.rows.filter (fun r => !(rowMask t s r))

/-- `_col_to_dt` (`app.py` lines 33-39): strip the trailing `.2` from a
revenue column label and parse the remainder as a date; `parse` abstracts
`pd.to_datetime` (dates as integers, `none` models `NaT`/parse failure).
For labels ending in `.2`, `rsplit(".2", 1)[0]` is exactly the label
without its last two characters. -/
def col_to_dt (parse : String → Option ℤ) (c : String) : Option ℤ :=
  parse (c.dropRight 2)

/-- The comparison underlying `rev_dt.sort_values()` (`app.py` lines
41-42): labels compare by parsed date, and a label that failed to parse
(`NaT`) sorts after every parseable label (pandas places `NaT` last). -/
def dt_le (parse : String → Option ℤ) (c1 c2 : String) : Bool :=
  match col_to_dt parse c1, col_to_dt parse c2 with
  | some a, some b => a ≤ b
  | some _, none => true
  | none, some _ => false
  | none, none => true

/-- `app.py` line 27: the revenue columns are those whose label ends in
`.2`, in dataframe column order. -/
def raw_revenue_cols (cols : List String) : List String :=
  cols.filter (fun c => c.endsWith ".2")

/-- `revenue_cols` after the sort on line 42: the `.2` columns sorted
chronologically by parsed date, unparseable labels last. -/
def revenue_cols (parse : String → Option ℤ) (cols : List String) : List String :=
  (raw_revenue_cols cols).mergeSort (dt_le parse)

/-- The two uplift models offered by the radio control (`app.py` line
61): percentage increase or fixed dollars per day. -/
inductive UpliftType where
  | pct : UpliftType
  | fixed : UpliftType
deriving DecidableEq

/-- The position of the effective month among the revenue columns in
dataframe order.  `app.py` (lines 90-91) computes the scope via
`df.columns.get_loc`; since all compared columns are revenue columns,
comparisons of `get_loc` values coincide with comparisons of positions
within `revColNames` (column names in a dataframe are distinct and
`get_loc` is strictly monotone in that list). -/
def effIdx (t : Table) (eff : String) : ℕ :=
  t.revColNames.indexOf eff

/-- The per-row multiplicative factor applied to in-scope revenue cells:
`1 + uplift/100` in percentage mode (`app.py` line 97); in fixed mode the
per-row ratio `uplift / charge_rate` with a zero rate giving ratio `0`
(lines 106-107: `replace(0, np.nan)` then `.fillna(0.0)`). -/
def upliftFactor (ty : UpliftType) (v : ℚ) (r : Row) : ℚ :=
  match ty with
  | .pct => 1 + v / 100
  | .fixed => 1 + (if r.charge = 0 then 0 else v / r.charge)

/-- The loop of `app.py` lines 98-99 / 108-109 as it acts on one row's
revenue list: every cell at position `k` onward is multiplied by the
factor, earlier cells are untouched. -/
def upliftRevs (factor : ℚ) (k : ℕ) : List ℚ → List ℚ
  | [] => []
  | x :: xs => (if k = 0 then x * factor else x) :: upliftRevs factor (k - 1) xs

/-- The effect of the uplift (`app.py` lines 96-109) on one affected row:
revenue cells from the effective position onward are scaled by the
per-row factor; dimension and rate cells are untouched. -/
def upliftRow (ty : UpliftType) (v : ℚ) (k : ℕ) (r : Row) : Row :=
  { r with rev := upliftRevs (upliftFactor ty v r) k r.rev }

/-- `df_uplifted` (`app.py` line 112): the uplifted affected rows
concatenated with the unaffected rows. -/
def df_uplifted (t : Table) (s : Selection) (ty : UpliftType) (v : ℚ)
    (eff : String) : List Row :=
  (df_affected t s).map (upliftRow ty v (effIdx t eff)) ++ df_unaffected t s

/-- The row `df_uplifted` carries for a given original row: uplifted when
the row satisfies the mask, identical otherwise. -/
def condUplift (t : Table) (s : Selection) (ty : UpliftType) (v : ℚ)
    (eff : String) (r : Row) : Row :=
  if rowMask t s r then upliftRow ty v (effIdx t eff) r else r

/-- A row's revenue cell at month position `j` (0 when out of range). -/
def revAt (r : Row) (j : ℕ) : ℚ :=
  r.rev.getD j 0

/-- `new_rate` (`app.py` lines 121-124): the post-uplift daily rate of an
affected row — `charge_rate * (1 + uplift/100)` in percentage mode,
`charge_rate + uplift` in fixed mode. -/
def new_rate (ty : UpliftType) (v : ℚ) (r : Row) : ℚ :=
  match ty with
  | .pct => r.charge * (1 + v / 100)
  | .fixed => r.charge + v

/-- `new_margin_pct` (`app.py` line 126): per-row
`((new_rate - cost_rate) / new_rate) * 100`, computed in float
arithmetic. -/
def new_margin_pct (ty : UpliftType) (v : ℚ) (r : Row) : Fl :=
  (((Fl.fin (new_rate ty v r)).sub (Fl.fin r.cost)).div
      (Fl.fin (new_rate ty v r))).mul (Fl.fin 100)

/-- `np.nanmean`: the mean of the non-`nan` entries (infinities are NOT
excluded); `nan` when no entry is defined (also for the empty list). -/
def nanmean (l : List Fl) : Fl :=
  let vs := l.filter (fun x => !x.isNan)
  if vs.isEmpty then Fl.nan
  else (vs.foldl Fl.add (Fl.fin 0)).div (Fl.fin (vs.length : ℚ))

/-- `avg_margin` (`app.py` lines 120-129): the `nanmean` of the per-row
margins of the affected rows when both rate columns are present, `nan`
otherwise. -/
def avg_margin (t : Table) (s : Selection) (ty : UpliftType) (v : ℚ) : Fl :=
  if t.hasCost && t.hasCharge then
    nanmean ((df_affected t s).map (new_margin_pct ty v))
  else Fl.nan

/-- The displayed aggregate margin metric (`app.py` line 136): the string
`N/A` exactly when `np.isnan(avg_margin)`, else the formatted number. -/
def avg_margin_display (f : Fl) : String :=
  if f.isNan then "N/A" else "number"

/-- Sum of in-scope (position `k` onward) revenue over a list of rows —
the `df[rev_cols_from_effective].sum().sum()` of `app.py` lines
115-116. -/
def scopeSum (k : ℕ) (rs : List Row) : ℚ :=
  (rs.map (fun r => ((r.rev.drop k).sum))).sum

/-- The mutable frames the script holds between line 87 and line 112.
`pandas.DataFrame.copy()` produces an independent buffer, so the
assignments `df_affected[col] = ...` of lines 99/109 touch only the
`df_affected` field; the embedding makes each frame a separate value. -/
structure AppState where
  df : Table
  df_base : Table
  aff : List Row
  unaff : List Row
deriving DecidableEq

/-- The state after lines 85-87: `df_base = df.copy()`,
`df_affected = df.loc[mask].copy()`, `df_unaffected` its complement. -/
def initState (t : Table) (s : Selection) : AppState :=
  { df := t, df_base := t, aff := df_affected t s, unaff := df_unaffected t s }

/-- The state after the uplift block (`app.py` lines 96-109): only the
affected frame is rewritten. -/
def applyUpliftState (ty : UpliftType) (v : ℚ) (k : ℕ) (st : AppState) :
    AppState :=
  { st with aff := st.aff.map (upliftRow ty v k) }

/-! ### Helper lemmas -/

theorem upliftRevs_getD (factor : ℚ) (k j : ℕ) (l : List ℚ) :
    (upliftRevs factor k l).getD j 0 =
      if k ≤ j then l.getD j 0 * factor else l.getD j 0 := by
  induction l generalizing k j with
  | nil =>
      simp [upliftRevs]
  | cons x xs ih =>
      cases j with
      | zero =>
          cases k with
          | zero => simp [upliftRevs]
          | succ m => simp [upliftRevs]
      | succ j =>
          cases k with
          | zero => simpa [upliftRevs] using ih 0 j
          | succ m =>
              have h : m + 1 ≤ j + 1 ↔ m ≤ j := by omega
              simpa [upliftRevs, h] using ih m j

theorem upliftRevs_one (k : ℕ) (l : List ℚ) : upliftRevs 1 k l = l := by
  induction l generalizing k with
  | nil => rfl
  | cons x xs ih => simp [upliftRevs, ih]

theorem mem_dims (d : Dim) : d ∈ dims := by
  cases d <;> simp [dims]

theorem rowMask_congr (t : Table) (s1 s2 : Selection) (r : Row)
    (h : ∀ d : Dim, dimTerm t s1 d r = dimTerm t s2 d r) :
    rowMask t s1 r = rowMask t s2 r := by
  simp only [rowMask, List.all_eq, h]

/-! ### Concrete fixtures used by witnesses and counterexamples -/

/-- Row A of the spec's concrete scenario: charge 100, cost 60, Jan/Feb
revenue 1000/1100, Branch `X`. -/
def rowA : Row :=
  ⟨some "X", none, none, none, 100, 60, [1000, 1100]⟩

/-- Row B of the spec's concrete scenario: charge 200, cost 80, Jan/Feb
revenue 2000/2200, Branch `Y`. -/
def rowB : Row :=
  ⟨some "Y", none, none, none, 200, 80, [2000, 2200]⟩

/-- Two-row two-month table holding `rowA` and `rowB`; only the Branch
dimension column is present. -/
def tAB : Table :=
  ⟨true, false, false, false, true, true, ["jan.2", "feb.2"], [rowA, rowB]⟩

/-- Selection picking Branch `X` only. -/
def selA : Selection :=
  ⟨["X"], [], [], []⟩

/-- The all-empty selection (every multiselect cleared). -/
def sEmpty : Selection :=
  ⟨[], [], [], []⟩

/-- Row with a zero daily charge rate (spec scenario 8). -/
def rowC : Row :=
  ⟨none, none, none, none, 0, 70, [500]⟩

/-- One-row one-month table holding `rowC`; no dimension columns, so
every row is affected under any selection. -/
def tC : Table :=
  ⟨false, false, false, false, true, true, ["jan.2"], [rowC]⟩

theorem rowA_mem_affected : rowA ∈ df_affected tAB selA := by
  simp [df_affected, rowMask, dims, dimTerm, safe_unique, Table.colPresent, tAB,
    Row.dimVal, Selection.sel, selA, rowA, rowB, List.filter]

theorem rowC_mem_affected : rowC ∈ df_affected tC sEmpty := by
  simp [df_affected, rowMask, dims, dimTerm, safe_unique, Table.colPresent, tC,
    Row.dimVal, Selection.sel, List.filter]

/-! ### C1 -/

/-- C1: in Percentage mode, for every affected row and every in-scope
month position (effective position onward), the uplifted revenue equals
the original revenue times `1 + pct/100`, the derived new rate equals
`charge_rate * (1 + pct/100)`, and with `pct = 0` the uplifted revenue
equals the original revenue. -/
theorem percentage_uplift_correct (t : Table) (s : Selection) (v : ℚ)
    (eff : String) (r : Row) (hr : r ∈ df_affected t s) (j : ℕ)
    (hj : effIdx t eff ≤ j) :
    revAt (upliftRow .pct v (effIdx t eff) r) j = revAt r j * (1 + v / 100)
      ∧ new_rate .pct v r = r.charge * (1 + v / 100)
      ∧ (v = 0 → revAt (upliftRow .pct v (effIdx t eff) r) j = revAt r j) := by
  refine ⟨?_, rfl, ?_⟩
  · simp only [revAt, upliftRow, upliftFactor]
    rw [upliftRevs_getD, if_pos hj]
  · intro hv
    simp only [revAt, upliftRow, upliftFactor, hv]
    rw [upliftRevs_getD, if_pos hj]
    norm_num

theorem percentage_uplift_correct_witness :
    rowA ∈ df_affected tAB selA ∧ effIdx tAB "feb.2" ≤ 1 ∧
      (revAt (upliftRow .pct 10 (effIdx tAB "feb.2") rowA) 1 =
          revAt rowA 1 * (1 + 10 / 100)
        ∧ new_rate .pct 10 rowA = rowA.charge * (1 + 10 / 100)
        ∧ ((10 : ℚ) = 0 → revAt (upliftRow .pct 10 (effIdx tAB "feb.2") rowA) 1 =
            revAt rowA 1)) :=
  ⟨rowA_mem_affected, by decide,
    percentage_uplift_correct tAB selA 10 "feb.2" rowA rowA_mem_affected 1 (by decide)⟩

/-! ### C2 -/

/-- C2: in Fixed-per-day mode, for every affected row, in-scope revenue
is scaled by `1 + uplift/charge_rate` with the ratio forced to `0` for a
zero charge rate, the new rate is `charge_rate + uplift`, and a zero-rate
row's revenue list is unchanged in every month (no division fault: the
embedding's ratio is total). -/
theorem fixed_uplift_correct (t : Table) (s : Selection) (v : ℚ)
    (eff : String) (r : Row) (hr : r ∈ df_affected t s) (j : ℕ)
    (hj : effIdx t eff ≤ j) :
    revAt (upliftRow .fixed v (effIdx t eff) r) j =
        revAt r j * (1 + (if r.charge = 0 then 0 else v / r.charge))
      ∧ new_rate .fixed v r = r.charge + v
      ∧ (r.charge = 0 → (upliftRow .fixed v (effIdx t eff) r).rev = r.rev) := by
  refine ⟨?_, rfl, ?_⟩
  · simp only [revAt, upliftRow, upliftFactor]
    rw [upliftRevs_getD, if_pos hj]
  · intro hc
    simp [upliftRow, upliftFactor, hc, upliftRevs_one]

theorem fixed_uplift_correct_witness :
    rowC ∈ df_affected tC sEmpty ∧ effIdx tC "jan.2" ≤ 0 ∧
      (revAt (upliftRow .fixed 50 (effIdx tC "jan.2") rowC) 0 =
          revAt rowC 0 * (1 + (if rowC.charge = 0 then 0 else 50 / rowC.charge))
        ∧ new_rate .fixed 50 rowC = rowC.charge + 50
        ∧ (rowC.charge = 0 → (upliftRow .fixed 50 (effIdx tC "jan.2") rowC).rev =
            rowC.rev)) :=
  ⟨rowC_mem_affected, by decide,
    fixed_uplift_correct tC sEmpty 50 "jan.2" rowC rowC_mem_affected 0 (by decide)⟩

/-! ### C6 -/

/-- C6: after the uplift block, the original dataframe and the baseline
copy `df_base` are unchanged (so every original revenue value is
bit-identical to before the call), the unaffected partition is
untouched, and the original totals computed downstream from `df_base`
coincide with the totals of the input dataset: the uplift rewrote only
the private affected copy. -/
theorem baseline_immutable (t : Table) (s : Selection) (ty : UpliftType)
    (v : ℚ) (k : ℕ) :
    (applyUpliftState ty v k (initState t s)).df = t
      ∧ (applyUpliftState ty v k (initState t s)).df_base = t
      ∧ (applyUpliftState ty v k (initState t s)).unaff = df_unaffected t s
      ∧ scopeSum k (applyUpliftState ty v k (initState t s)).df_base.rows =
          scopeSum k t.rows :=
  ⟨rfl, rfl, rfl, rfl⟩

/-! ### C4 -/

/-- C4: for every dataset and filter selection (including match-all and
match-none selections), the affected and unaffected partitions are
disjoint, together they contain every original row exactly once (their
concatenation is a permutation of the dataset and the cardinalities add
up), and the reconciled uplifted dataset has exactly the original
cardinality. -/
theorem partition_reconcile_invariant (t : Table) (s : Selection)
    (ty : UpliftType) (v : ℚ) (eff : String) :
    (df_affected t s ++ df_unaffected t s).Perm t.rows
      ∧ (df_affected t s).length + (df_unaffected t s).length = t.rows.length
      ∧ (df_affected t s).Disjoint (df_unaffected t s)
      ∧ (df_uplifted t s ty v eff).length = t.rows.length := by
  have hperm : (df_affected t s ++ df_unaffected t s).Perm t.rows :=
    List.filter_append_perm (rowMask t s) t.rows
  have hlen : (df_affected t s).length + (df_unaffected t s).length =
      t.rows.length := by
    simpa [List.length_append] using hperm.length_eq
  refine ⟨hperm, hlen, ?_, ?_⟩
  · intro a ha hu
    have h1 : rowMask t s a = true := (List.mem_filter.mp ha).2
    have h2 : (!(rowMask t s a)) = true := (List.mem_filter.mp hu).2
    simp [h1] at h2
  · simpa [df_uplifted, List.length_append, List.length_map] using hlen

/-! ### C3 -/

/-- C3 as stated is false on the code: the in-scope test (`app.py` lines
90-91) compares raw dataframe column positions, not the parsed dates the
resolver sorts by.  In this table the dataframe lists February before
January; with February as the effective month, January — chronologically
strictly before February — is still uplifted.  Fixture for the
counterexample. -/
def cexParse : String → Option ℤ :=
  fun c => if c = "jan" then some 1 else if c = "feb" then some 2 else none

/-- Single row of the reordered-columns counterexample table; revenue
cells are aligned with `cexTable.revColNames = ["feb.2", "jan.2"]`. -/
def cexRow : Row :=
  ⟨none, none, none, none, 100, 60, [300, 100]⟩

/-- Table whose revenue columns appear in reverse chronological dataframe
order. -/
def cexTable : Table :=
  ⟨false, false, false, false, true, true, ["feb.2", "jan.2"], [cexRow]⟩

/-- C3 counterexample: the January column (position 1, parsed date 1) is
chronologically before the effective February column (parsed date 2),
yet its revenue cell changes under a 10% uplift — the claim's
chronological reading fails on a dataframe whose revenue columns are not
chronologically ordered. -/
theorem out_of_scope_claim_cex :
    col_to_dt cexParse "jan.2" = some 1
      ∧ col_to_dt cexParse "feb.2" = some 2
      ∧ cexTable.revColNames.getD 1 "" = "jan.2"
      ∧ rowMask cexTable sEmpty cexRow = true
      ∧ (df_uplifted cexTable sEmpty .pct 10 "feb.2").map (fun r => revAt r 1) =
          [110]
      ∧ cexTable.rows.map (fun r => revAt r 1) = [100] := by
  refine ⟨by decide, by decide, by decide, by decide, ?_, by decide⟩
  norm_num [df_uplifted, df_affected, df_unaffected, rowMask, dims, dimTerm,
    safe_unique, Table.colPresent, cexTable, cexRow, List.filter, upliftRow,
    upliftRevs, upliftFactor, effIdx, revAt, List.indexOf, List.findIdx,
    List.findIdx.go]

/-- C3 amended: months at dataframe column positions strictly before the
effective month's column position are numerically unchanged, for every
row of the dataset (the uplifted dataset is row-for-row the conditional
uplift of the original rows, up to the affected-first reordering of the
concatenation); when the dataframe lists the revenue columns in
chronological order this coincides with the claim's chronological
reading. -/
theorem out_of_scope_invariance_positional (t : Table) (s : Selection)
    (ty : UpliftType) (v : ℚ) (eff : String) (r : Row) (hr : r ∈ t.rows)
    (j : ℕ) (hj : j < effIdx t eff) :
    (df_uplifted t s ty v eff).Perm (t.rows.map (condUplift t s ty v eff))
      ∧ revAt (condUplift t s ty v eff r) j = revAt r j := by
  constructor
  · have h1 : (df_affected t s).map (upliftRow ty v (effIdx t eff)) =
        (df_affected t s).map (condUplift t s ty v eff) := by
      apply List.map_congr_left
      intro a ha
      have := (List.mem_filter.mp ha).2
      simp [condUplift, this]
    have h2 : df_unaffected t s = (df_unaffected t s).map (condUplift t s ty v eff) := by
      conv_lhs => rw [← List.map_id (df_unaffected t s)]
      apply List.map_congr_left
      intro a ha
      have := (List.mem_filter.mp ha).2
      simp at this
      simp [condUplift, this]
    rw [df_uplifted, h1, h2, ← List.map_append]
    exact (List.filter_append_perm (rowMask t s) t.rows).map _
  · unfold condUplift
    by_cases h : rowMask t s r = true
    · simp only [h, if_true, upliftRow, revAt]
      rw [upliftRevs_getD, if_neg (by omega)]
    · simp [h]

theorem out_of_scope_invariance_positional_witness :
    rowA ∈ tAB.rows ∧ 0 < effIdx tAB "feb.2" ∧
      ((df_uplifted tAB selA .pct 10 "feb.2").Perm
          (tAB.rows.map (condUplift tAB selA .pct 10 "feb.2"))
        ∧ revAt (condUplift tAB selA .pct 10 "feb.2" rowA) 0 = revAt rowA 0) :=
  ⟨by simp [tAB], by decide,
    out_of_scope_invariance_positional tAB selA .pct 10 "feb.2" rowA
      (by simp [tAB]) 0 (by decide)⟩

/-! ### C5 -/

/-- Row for the empty-selection counterexample: Branch `A` observed. -/
def r5 : Row :=
  ⟨some "A", none, none, none, 100, 60, [500]⟩

/-- Table with a populated Branch column for the empty-selection
counterexample. -/
def t5 : Table :=
  ⟨true, false, false, false, true, true, ["jan.2"], [r5]⟩

/-- C5 counterexample: with every selection set empty but the Branch
column populated, the claim says the row is Affected (no non-empty
selection set constrains it); the code conjoins
`df["Branch"].isin([])`, which is false, so the affected partition is
empty while the dataset is not. -/
theorem empty_selection_claim_cex :
    sEmpty.branch = [] ∧ sEmpty.capability = [] ∧ sEmpty.team = []
      ∧ sEmpty.job = []
      ∧ rowMask t5 sEmpty r5 = false
      ∧ df_affected t5 sEmpty = []
      ∧ t5.rows = [r5] := by
  refine ⟨rfl, rfl, rfl, rfl, by decide, ?_, rfl⟩
  simp [df_affected, rowMask, dims, dimTerm, safe_unique, Table.colPresent, t5,
    r5, Row.dimVal, Selection.sel, sEmpty, List.filter]

/-- C5 amended: the guard that skips a dimension's filter term tests the
dimension's OBSERVED value list (`safe_unique`), not the selection set:
a row is Affected iff, for every dimension whose observed value list is
non-empty, the row's value is a (non-null) member of that dimension's
selection set — so an empty selection set on a populated dimension
matches no rows, and every row is Affected when all observed value lists
are empty (absent or all-null columns). -/
theorem affected_iff_observed_filter (t : Table) (s : Selection) (r : Row) :
    (r ∈ df_affected t s ↔ r ∈ t.rows ∧ ∀ d : Dim,
        (safe_unique t d).isEmpty = false →
          ∃ v, r.dimVal d = some v ∧ v ∈ s.sel d)
      ∧ ((∀ d : Dim, (safe_unique t d).isEmpty = true) →
          df_affected t s = t.rows) := by
  have hterm : ∀ d : Dim, dimTerm t s d r = true ↔
      ((safe_unique t d).isEmpty = false →
        ∃ v, r.dimVal d = some v ∧ v ∈ s.sel d) := by
    intro d
    unfold dimTerm
    by_cases he : (safe_unique t d).isEmpty
    · simp [he]
    · cases hv : r.dimVal d with
      | none => simp [he, hv]
      | some v => simp [he, hv, List.contains]
  constructor
  · rw [df_affected, List.mem_filter]
    constructor
    · rintro ⟨hmem, hmask⟩
      refine ⟨hmem, fun d => ?_⟩
      have := (List.all_eq_true.mp hmask) d (mem_dims d)
      exact (hterm d).mp this
    · rintro ⟨hmem, hall⟩
      refine ⟨hmem, List.all_eq_true.mpr fun d _ => ?_⟩
      exact (hterm d).mpr (hall d)
  · intro hall
    rw [df_affected]
    apply List.filter_eq_self.mpr
    intro a _
    refine List.all_eq_true.mpr fun d _ => ?_
    simp [dimTerm, hall d]

/-! ### C7 -/

/-- Affected row with a zero charge rate and a positive cost rate. -/
def zRow : Row :=
  ⟨none, none, none, none, 0, 60, [500]⟩

/-- One-row table for the zero-new-rate margin evaluation. -/
def zTable : Table :=
  ⟨false, false, false, false, true, true, ["jan.2"], [zRow]⟩

/-- C7 is the intent of the code (`np.errstate(...ignore)` plus
`np.nanmean` plus the `N/A` fallback) but the code misses it: for an
affected row with `new_rate == 0` and a nonzero cost rate, float
division gives `(0 - 60)/0 = -inf`, not `nan`; `np.nanmean` excludes
only `nan`, so the aggregate becomes `-inf` and `np.isnan` is false, so
the UI formats `-inf%` instead of reporting `N/A`.  This theorem
evaluates the embedding at that failing input. -/
theorem zero_new_rate_margin_bug :
    new_rate .pct 5 zRow = 0
      ∧ new_margin_pct .pct 5 zRow = Fl.ninf
      ∧ Fl.isNan (new_margin_pct .pct 5 zRow) = false
      ∧ avg_margin zTable sEmpty .pct 5 = Fl.ninf
      ∧ avg_margin_display (avg_margin zTable sEmpty .pct 5) = "number" := by
  have h1 : new_rate .pct 5 zRow = 0 := by norm_num [new_rate, zRow]
  have h2 : new_margin_pct .pct 5 zRow = Fl.ninf := by
    norm_num [new_margin_pct, new_rate, zRow, Fl.sub, Fl.div, Fl.mul]
  have h3 : avg_margin zTable sEmpty .pct 5 = Fl.ninf := by
    rw [avg_margin]
    norm_num [zTable, df_affected, rowMask, dims, dimTerm, safe_unique,
      Table.colPresent, List.filter, h2, nanmean, Fl.isNan, Fl.add, Fl.div]
  exact ⟨h1, h2, by rw [h2]; rfl, h3, by rw [h3]; rfl⟩

/-! ### C8 -/

/-- Row of the spec's margin scenario: charge 100, cost 60. -/
def mRow : Row :=
  ⟨none, none, none, none, 100, 60, [1000]⟩

/-- One-row table for the margin scenario; no dimension columns. -/
def mTable : Table :=
  ⟨false, false, false, false, true, true, ["jan.2"], [mRow]⟩

theorem mRow_mem_affected : mRow ∈ df_affected mTable sEmpty := by
  simp [df_affected, rowMask, dims, dimTerm, safe_unique, Table.colPresent,
    mTable, Row.dimVal, Selection.sel, List.filter]

/-- C8: for every affected row whose new rate is nonzero, the per-row
margin is exactly `(new_rate - cost_rate) / new_rate * 100`; and in the
spec's scenario (charge 100, cost 60, 25% uplift) the new rate is 125
and the margin is 52. -/
theorem margin_formula (t : Table) (s : Selection) (ty : UpliftType) (v : ℚ)
    (r : Row) (hr : r ∈ df_affected t s) (h : new_rate ty v r ≠ 0) :
    new_margin_pct ty v r =
        Fl.fin ((new_rate ty v r - r.cost) / new_rate ty v r * 100)
      ∧ new_rate .pct 25 mRow = 125
      ∧ new_margin_pct .pct 25 mRow = Fl.fin 52 := by
  refine ⟨?_, by norm_num [new_rate, mRow], ?_⟩
  · simp [new_margin_pct, Fl.sub, Fl.div, Fl.mul, h]
  · norm_num [new_margin_pct, new_rate, mRow, Fl.sub, Fl.div, Fl.mul]

theorem margin_formula_witness :
    mRow ∈ df_affected mTable sEmpty ∧ new_rate .fixed 0 mRow ≠ 0 ∧
      (new_margin_pct .fixed 0 mRow =
          Fl.fin ((new_rate .fixed 0 mRow - mRow.cost) / new_rate .fixed 0 mRow
            * 100)
        ∧ new_rate .pct 25 mRow = 125
        ∧ new_margin_pct .pct 25 mRow = Fl.fin 52) :=
  ⟨mRow_mem_affected, by simp [new_rate, mRow],
    margin_formula mTable sEmpty .fixed 0 mRow mRow_mem_affected
      (by simp [new_rate, mRow])⟩

/-! ### C9 -/

theorem dt_le_trans (parse : String → Option ℤ) (a b c : String)
    (h1 : dt_le parse a b) (h2 : dt_le parse b c) : dt_le parse a c := by
  unfold dt_le at h1 h2 ⊢
  cases ha : col_to_dt parse a <;> cases hb : col_to_dt parse b <;>
    cases hc : col_to_dt parse c <;> simp_all <;> omega

theorem dt_le_total (parse : String → Option ℤ) (a b : String) :
    dt_le parse a b || dt_le parse b a := by
  unfold dt_le
  cases ha : col_to_dt parse a <;> cases hb : col_to_dt parse b <;> simp_all
  omega

/-- C9: schema resolution keeps exactly the `.2`-suffixed columns (the
sorted list is a permutation of them, so none is dropped), the result is
sorted chronologically under the date comparison in which a parse
failure compares greater, and every column whose label fails to parse
sits after all parseable columns (unparseable entries form a suffix). -/
theorem revenue_cols_resolution (parse : String → Option ℤ)
    (cols : List String) :
    (revenue_cols parse cols).Perm (raw_revenue_cols cols)
      ∧ (revenue_cols parse cols).Pairwise (fun a b => dt_le parse a b = true)
      ∧ ∀ i j : ℕ, i ≤ j → j < (revenue_cols parse cols).length →
          col_to_dt parse ((revenue_cols parse cols).getD i "") = none →
          col_to_dt parse ((revenue_cols parse cols).getD j "") = none := by
  have hperm : (revenue_cols parse cols).Perm (raw_revenue_cols cols) :=
    List.mergeSort_perm (raw_revenue_cols cols) (dt_le parse)
  have hsort : (revenue_cols parse cols).Pairwise
      (fun a b => dt_le parse a b = true) := by
    have h := @List.sorted_mergeSort String (dt_le parse)
      (fun a b c => dt_le_trans parse a b c)
      (fun a b => dt_le_total parse a b) (raw_revenue_cols cols)
    simpa using h
  refine ⟨hperm, hsort, ?_⟩
  intro i j hij hj hni
  have hi : i < (revenue_cols parse cols).length := lt_of_le_of_lt
    (Nat.le_of_lt_succ (Nat.lt_succ_of_le hij)) hj
  rcases Nat.lt_or_ge i j with hlt | hge
  · have hrel := (List.pairwise_iff_getElem.mp hsort) i j hi hj hlt
    have hgi : (revenue_cols parse cols).getD i "" =
        (revenue_cols parse cols)[i] := by
      simp [List.getD_eq_getElem?_getD, List.getElem?_eq_getElem hi]
    have hgj : (revenue_cols parse cols).getD j "" =
        (revenue_cols parse cols)[j] := by
      simp [List.getD_eq_getElem?_getD, List.getElem?_eq_getElem hj]
    rw [hgi] at hni
    rw [hgj]
    unfold dt_le at hrel
    rw [hni] at hrel
    cases hc : col_to_dt parse (revenue_cols parse cols)[j] with
    | none => rfl
    | some x => rw [hc] at hrel; simp at hrel
  · have : i = j := Nat.le_antisymm hij hge
    rw [← this]
    exact hni

/-! ### C10 -/

/-- C10: a dimension column that is entirely absent from the dataset
imposes no constraint: its observed value list is empty, and the
affected/unaffected partition is independent of that dimension's
selection set — eligibility rests solely on the remaining dimensions. -/
theorem absent_column_no_constraint (t : Table) (d : Dim)
    (s1 s2 : Selection) (hp : t.colPresent d = false)
    (hs : ∀ e : Dim, e ≠ d → s1.sel e = s2.sel e) :
    safe_unique t d = []
      ∧ df_affected t s1 = df_affected t s2
      ∧ df_unaffected t s1 = df_unaffected t s2 := by
  have hsu : safe_unique t d = [] := by simp [safe_unique, hp]
  have hmask : ∀ r : Row, rowMask t s1 r = rowMask t s2 r := by
    intro r
    apply rowMask_congr
    intro e
    by_cases he : e = d
    · subst he
      simp [dimTerm, hsu]
    · simp only [dimTerm, hs e he]
  refine ⟨hsu, ?_, ?_⟩
  · exact List.filter_congr (fun r _ => hmask r)
  · exact List.filter_congr (fun r _ => by rw [hmask r])

/-- Selection differing from `sEmpty` only at the (absent) Branch
dimension. -/
def s1w : Selection :=
  ⟨["Q"], [], [], []⟩

theorem absent_column_no_constraint_witness :
    tC.colPresent Dim.branch = false
      ∧ (∀ e : Dim, e ≠ Dim.branch → s1w.sel e = sEmpty.sel e)
      ∧ (safe_unique tC Dim.branch = []
          ∧ df_affected tC s1w = df_affected tC sEmpty
          ∧ df_unaffected tC s1w = df_unaffected tC sEmpty) :=
  ⟨by decide, by decide,
    absent_column_no_constraint tC Dim.branch s1w sEmpty (by decide) (by decide)⟩

end RateCard
